import Mathlib

/-!
Verification development for the SparkAgent research-agent application.

The repository is a React/TypeScript single-page app.  The core under
verification is the execution scheduler `processQueue` inside
`handleStartExecution` (src/unnamed/part_001, lines 264-393), the
pre-run task-editing handlers `toggleTaskPriority` / `handleDeleteTask`
(same file, lines 216-262), and the single-task executor
`executeResearchTask` (src/unnamed/part_000, lines 128-173).

The stateful scheduler is embedded as a labelled transition system
(`SchedStep`) over an explicit run state; the pure helpers of the loop
body (readiness filtering, task selection, context aggregation, the
branch structure of one loop iteration) are embedded as executable Lean
functions translated clause by clause from the TypeScript source.
-/

/-- Task lifecycle status (`AgentTask['status']` in the source):
`'pending' | 'running' | 'completed' | 'failed'`. -/
inductive TaskStatus where
  | pending
  | running
  | completed
  | failed
  deriving DecidableEq

/-- Task priority (`'normal' | 'high'` in the source). -/
inductive TaskPriority where
  | normal
  | high
  deriving DecidableEq

/-- A web source attached to a result (the `Source` shape used by
`extractSources` in src/unnamed/part_000: title, url, snippet, source). -/
structure Source where
  title : String
  url : String
  snippet : String
  source : String
  deriving DecidableEq

/-- Result of one executor call (`SearchResult` in the source):
text plus a list of sources. -/
structure SearchResult where
  text : String
  sources : List Source
  deriving DecidableEq

/-- One unit of delegated work (`AgentTask` in the source).  The TS type
marks `dependencies` optional, but every producer normalizes a missing
list to `[]` (`planResearch` maps `dependencies: t.dependencies || []`,
`handleAddTask` initializes `dependencies: []`), and every consumer
treats `undefined` exactly as the empty list
(`!t.dependencies || t.dependencies.length === 0`,
`t.dependencies?.filter(...) || []`), so it is embedded as a plain list. -/
structure AgentTask where
  id : String
  title : String
  agentRole : String
  description : String
  goal : String
  status : TaskStatus
  priority : TaskPriority
  dependencies : List String
  deriving DecidableEq

/-- `const MAX_CONCURRENCY = 2` (src/unnamed/part_001, line 269). -/
def MAX_CONCURRENCY : Nat := 2

/-- `currentTasks.filter(t => t.status === 'pending')` (line 280). -/
def pendingTasks (ts : List AgentTask) : List AgentTask :=
  ts.filter (fun t => decide (t.status = TaskStatus.pending))

/-- `currentTasks.filter(t => t.status === 'running')` (line 281). -/
def runningTasks (ts : List AgentTask) : List AgentTask :=
  ts.filter (fun t => decide (t.status = TaskStatus.running))

/-- `currentTasks.filter(t => t.status === 'completed')` (line 282). -/
def completedTasks (ts : List AgentTask) : List AgentTask :=
  ts.filter (fun t => decide (t.status = TaskStatus.completed))

/-- Number of tasks whose status is `running`. -/
def runningCount (ts : List AgentTask) : Nat :=
  (runningTasks ts).length

/-- The readiness filter (lines 290-294):
`pending.filter(t => { if (!t.dependencies || t.dependencies.length === 0)
return true; return t.dependencies.every(depId =>
completed.some(c => c.id === depId)); })`. -/
def executableTasks (ts : List AgentTask) : List AgentTask :=
  (pendingTasks ts).filter (fun t =>
    if t.dependencies.length = 0 then true
    else t.dependencies.all (fun depId =>
      (completedTasks ts).any (fun c => decide (c.id = depId))))

/-- The readiness evaluation as performed by the loop body: it reads the
current task list and returns the eligible set, leaving the task list it
was given untouched (the filter in lines 290-294 performs no writes).
The second component records the task list after the evaluation. -/
def readinessEval (ts : List AgentTask) : List AgentTask × List AgentTask :=
  (executableTasks ts, ts)

/-- Task selection (line 298):
`executableTasks.find(t => t.priority === 'high') || executableTasks[0]`. -/
def nextTask? (ex : List AgentTask) : Option AgentTask :=
  match ex.find? (fun t => decide (t.priority = TaskPriority.high)) with
  | some t => some t
  | none => ex.head?

/-- `updateStatus` (lines 271-275): map over the task list replacing the
status of every task whose id matches. -/
def updateStatus (taskId : String) (st : TaskStatus) (ts : List AgentTask) :
    List AgentTask :=
  ts.map (fun t => if t.id = taskId then { t with status := st } else t)

/-- `toggleTaskPriority` (lines 216-226): flip priority between `high`
and `normal`, but only on the task with the given id and only while it
is still `pending`. -/
def toggleTaskPriority (taskId : String) (ts : List AgentTask) :
    List AgentTask :=
  ts.map (fun t =>
    if t.id = taskId ∧ t.status = TaskStatus.pending then
      { t with priority :=
          if t.priority = TaskPriority.high then TaskPriority.normal
          else TaskPriority.high }
    else t)

/-- `handleDeleteTask` (lines 251-262): drop the task with the given id
and strip that id from every remaining task's dependency list. -/
def handleDeleteTask (taskId : String) (ts : List AgentTask) :
    List AgentTask :=
  (ts.filter (fun t => !decide (t.id = taskId))).map (fun t =>
    { t with dependencies := t.dependencies.filter (fun d => !decide (d = taskId)) })

/-- The lookup feeding `Findings:` in the context block (lines 306-309):
`taskResultsMap.get(t.id)` followed by `result?.text || 'No info'`.
A missing entry or an empty result text both fall back to `'No info'`
(JavaScript `||` treats the empty string as falsy). -/
def findingsText (results : List (String × SearchResult)) (taskId : String) :
    String :=
  match results.find? (fun p => decide (p.1 = taskId)) with
  | some p => if p.2.text = "" then "No info" else p.2.text
  | none => "No info"

/-- One context block (the template literal in lines 307-309). -/
def contextBlock (results : List (String × SearchResult)) (t : AgentTask) :
    String :=
  "[Context from Agent: " ++ t.agentRole ++ " (Task: " ++ t.title ++ ")]:\n"
    ++ "Goal: " ++ t.goal ++ "\n"
    ++ "Findings: " ++ findingsText results t.id

/-- The dispatched context string (lines 305-310):
`completed.map(t => ...block...).join('\n\n---\n\n')` where `completed`
is the completed-status filter of the current task list, in the task
list's own (stable) order. -/
def contextString (ts : List AgentTask) (results : List (String × SearchResult)) :
    String :=
  String.intercalate "\n\n---\n\n" ((completedTasks ts).map (contextBlock results))

/-- The wait-loop predicate of `handleStartExecution` (line 341):
`tasksRef.current.some(t => t.status !== 'completed' && t.status !== 'failed')`.
While it evaluates to `true` the function keeps polling every 200 ms. -/
def waitCond (ts : List AgentTask) : Bool :=
  ts.any (fun t =>
    !decide (t.status = TaskStatus.completed) && !decide (t.status = TaskStatus.failed))

/-- The action taken by one iteration of the `while (true)` loop body of
`processQueue` (lines 278-333). -/
inductive LoopAction where
  | exitDone
  | launchTask (t : AgentTask)
  | spin
  | deadlockBreak
  | waitSlot
  | waitBlocked
  deriving DecidableEq

/-- One iteration of the `processQueue` loop body (lines 278-333),
with the branch structure translated in source order:
exit when nothing is pending and nothing is running (line 285);
launch when a slot is free and something is executable (line 296) —
`spin` is the fall-through of the `if (nextTask)` guard (line 300);
break with a deadlock warning when tasks are pending, nothing runs and
nothing is executable (line 319); return when the ceiling is saturated
(line 323); otherwise return and wait (line 326).  The `exitDone`,
`deadlockBreak`, `waitSlot` and `waitBlocked` branches perform no status
update and dispatch no executor call. -/
def loopIteration (ts : List AgentTask) : LoopAction :=
  if (pendingTasks ts).length = 0 ∧ (runningTasks ts).length = 0 then
    LoopAction.exitDone
  else if (runningTasks ts).length < MAX_CONCURRENCY ∧
      0 < (executableTasks ts).length then
    match nextTask? (executableTasks ts) with
    | some t => LoopAction.launchTask t
    | none => LoopAction.spin
  else if 0 < (pendingTasks ts).length ∧ (runningTasks ts).length = 0 ∧
      (executableTasks ts).length = 0 then
    LoopAction.deadlockBreak
  else if MAX_CONCURRENCY ≤ (runningTasks ts).length then
    LoopAction.waitSlot
  else
    LoopAction.waitBlocked

/-- The run-scoped mutable state of one execution pass
(src/unnamed/part_001, lines 265-334): the live task list
(`tasksRef.current`), the result map `taskResultsMap` kept as an
association list in insertion order (a JavaScript `Map` preserves
insertion order, and entries are inserted exactly when a task
completes, so the list order is the completion order), and a ghost log
of the executor dispatches `(task id, context string)` issued so far. -/
structure RunState where
  tasks : List AgentTask
  results : List (String × SearchResult)
  dispatches : List (String × String)
  deriving DecidableEq

/-- Effect of the launch branch (lines 296-317 up to the dispatch):
mark the selected task `running` and dispatch the executor with the
context built from the tasks completed at this moment. -/
def launchState (s : RunState) (t : AgentTask) : RunState :=
  { tasks := updateStatus t.id TaskStatus.running s.tasks,
    results := s.results,
    dispatches := s.dispatches ++ [(t.id, contextString s.tasks s.results)] }

/-- Effect of the completion handler (the `.then` callback, lines
312-317): record the result in `taskResultsMap`, then mark the task
`completed`. -/
def completeState (s : RunState) (taskId : String) (r : SearchResult) : RunState :=
  { tasks := updateStatus taskId TaskStatus.completed s.tasks,
    results := s.results ++ [(taskId, r)],
    dispatches := s.dispatches }

/-- Small-step transition relation of the running scheduler.  The
JavaScript runtime is single threaded, so the loop body between two
`await` points and each `.then` callback execute atomically; the three
state mutations that can occur while a run is in progress are:

* `launch` — the launch branch fires: a concurrency slot is free
  (`running.length < MAX_CONCURRENCY`) and the selector
  `executableTasks.find(high) || executableTasks[0]` yields a task
  (lines 296-317);
* `complete` — the `.then` callback of some running task's executor
  call fires with its result (lines 312-317);
* `toggle` — the user flips a priority through `toggleTaskPriority`,
  which the UI enables while the run is in the `SEARCHING` state
  (line 718). -/
inductive SchedStep : RunState → RunState → Prop where
  | launch (s : RunState) (t : AgentTask)
      (hslot : runningCount s.tasks < MAX_CONCURRENCY)
      (hsel : nextTask? (executableTasks s.tasks) = some t) :
      SchedStep s (launchState s t)
  | complete (s : RunState) (t : AgentTask) (r : SearchResult)
      (hmem : t ∈ s.tasks) (hrun : t.status = TaskStatus.running) :
      SchedStep s (completeState s t.id r)
  | toggle (s : RunState) (taskId : String) :
      SchedStep s { s with tasks := toggleTaskPriority taskId s.tasks }

/-- Reachability along scheduler steps. -/
inductive Reach (init : RunState) : RunState → Prop where
  | refl : Reach init init
  | step {s s' : RunState} : Reach init s → SchedStep s s' → Reach init s'

/-- Outcome of the `try` block of the single-task executor
(src/unnamed/part_000, lines 132-167): the generative call is external
I/O, abstracted as either a response (its text, possibly absent or
empty, and the source list extracted from its grounding chunks before
deduplication) or a thrown error. -/
inductive GenAttempt where
  | ok (responseText : Option String) (chunkSources : List Source)
  | error
  deriving DecidableEq

/-- The keep-first-occurrence deduplication by url performed at the end
of `extractSources` (src/unnamed/part_000, line 39):
`sources.filter((v, i, a) => a.findIndex(t => (t.url === v.url)) === i)`. -/
def dedupByUrl (ss : List Source) : List Source :=
  ss.foldl (fun acc s =>
    if acc.any (fun t => decide (t.url = s.url)) then acc else acc ++ [s]) []

/-- The placeholder returned by the executor's `catch` branch
(src/unnamed/part_000, line 171). -/
def failurePlaceholder : SearchResult :=
  { text := "Failed to retrieve information for this task.", sources := [] }

/-- `executeResearchTask` (src/unnamed/part_000, lines 128-173) as a
total function of the abstracted generative outcome: the `try` branch
returns `response.text || "No information found."` with the
deduplicated sources, and the `catch` branch returns the failure
placeholder.  Totality of this function is the embedding of "always
resolves, never rejects". -/
def executeResearchTask (attempt : GenAttempt) (task : AgentTask)
    (sharedContext : String) : SearchResult :=
  match attempt with
  | GenAttempt.ok rt srcs =>
      { text :=
          match rt with
          | some s => if s = "" then "No information found." else s
          | none => "No information found.",
        sources := dedupByUrl srcs }
  | GenAttempt.error => failurePlaceholder

/-- Definition following the specification's words for the dispatch
context: "concatenation, over every currently-completed task in the
graph, of a block naming that task's role, title, goal, and result
text.  Order follows the graph's completion order."  The completion
order is the insertion order of the result map, so the blocks are
enumerated along `results`. -/
def specContextCompletionOrder (ts : List AgentTask)
    (results : List (String × SearchResult)) : String :=
  String.intercalate "\n\n---\n\n"
    (results.filterMap (fun p =>
      (ts.find? (fun t =>
        decide (t.id = p.1) && decide (t.status = TaskStatus.completed))).map
        (contextBlock results)))

/-- Definition following the amended specification wording for the
dispatch context: concatenation, over exactly the tasks `completed` at
dispatch time, of a block naming role, title, goal and result text, in
the task list's stable iteration order. -/
def specContextStableOrder (ts : List AgentTask)
    (results : List (String × SearchResult)) : String :=
  String.intercalate "\n\n---\n\n"
    ((ts.filter (fun t => decide (t.status = TaskStatus.completed))).map
      (contextBlock results))

/-! ### Helper lemmas about the pure scheduler functions -/

lemma mem_executableTasks {ts : List AgentTask} {t : AgentTask} :
    t ∈ executableTasks ts ↔
      t ∈ ts ∧ t.status = TaskStatus.pending ∧
        ∀ d ∈ t.dependencies,
          ∃ c ∈ ts, c.status = TaskStatus.completed ∧ c.id = d := by
  unfold executableTasks pendingTasks completedTasks
  simp only [List.mem_filter, decide_eq_true_eq]
  constructor
  · rintro ⟨⟨hmem, hpend⟩, hcond⟩
    refine ⟨hmem, hpend, ?_⟩
    intro d hd
    by_cases hlen : t.dependencies.length = 0
    · rw [List.length_eq_zero] at hlen
      rw [hlen] at hd
      cases hd
    · rw [if_neg hlen] at hcond
      rw [List.all_eq_true] at hcond
      have := hcond d hd
      rw [List.any_eq_true] at this
      obtain ⟨c, hc, hcid⟩ := this
      rw [List.mem_filter, decide_eq_true_eq] at hc
      rw [decide_eq_true_eq] at hcid
      exact ⟨c, hc.1, hc.2, hcid⟩
  · rintro ⟨hmem, hpend, hdeps⟩
    refine ⟨⟨hmem, hpend⟩, ?_⟩
    by_cases hlen : t.dependencies.length = 0
    · rw [if_pos hlen]
    · rw [if_neg hlen, List.all_eq_true]
      intro d hd
      obtain ⟨c, hcmem, hccomp, hcid⟩ := hdeps d hd
      rw [List.any_eq_true]
      exact ⟨c, List.mem_filter.mpr ⟨hcmem, by simp [hccomp]⟩, by simp [hcid]⟩

lemma nextTask?_mem {ex : List AgentTask} {t : AgentTask}
    (h : nextTask? ex = some t) : t ∈ ex := by
  unfold nextTask? at h
  cases hf : ex.find? (fun t => decide (t.priority = TaskPriority.high)) with
  | some u =>
      rw [hf] at h
      cases h
      exact List.mem_of_find?_eq_some hf
  | none =>
      rw [hf] at h
      exact List.mem_of_mem_head? (Option.mem_def.mpr h)

lemma updateStatus_map_id (taskId : String) (st : TaskStatus)
    (ts : List AgentTask) :
    (updateStatus taskId st ts).map (fun t => t.id) = ts.map (fun t => t.id) := by
  unfold updateStatus
  rw [List.map_map]
  refine List.map_congr_left ?_
  intro a _
  by_cases h : a.id = taskId <;> simp [h]

lemma updateStatus_eq_self {taskId : String} {st : TaskStatus}
    {ts : List AgentTask} (h : ∀ t ∈ ts, t.id ≠ taskId) :
    updateStatus taskId st ts = ts := by
  unfold updateStatus
  have : ts.map (fun t => if t.id = taskId then { t with status := st } else t) =
      ts.map id := List.map_congr_left fun a ha => by simp [h a ha]
  rw [this, List.map_id]

lemma status_of_mem_updateStatus {taskId : String} {st : TaskStatus}
    {ts : List AgentTask} {t' : AgentTask}
    (hmem : t' ∈ updateStatus taskId st ts) (hid : t'.id = taskId) :
    t'.status = st := by
  unfold updateStatus at hmem
  obtain ⟨u, hu, hgu⟩ := List.mem_map.mp hmem
  by_cases h : u.id = taskId
  · rw [← hgu, if_pos h]
  · rw [← hgu, if_neg h] at hid
    exact absurd hid h


lemma runningCount_map_le (g : AgentTask → AgentTask)
    (hg : ∀ t, (g t).status = TaskStatus.running → t.status = TaskStatus.running)
    (ts : List AgentTask) :
    runningCount (ts.map g) ≤ runningCount ts := by
  induction ts with
  | nil => exact Nat.le_refl _
  | cons a l ih =>
      simp only [runningCount, runningTasks, List.map_cons, List.filter_cons] at ih ⊢
      by_cases h1 : (g a).status = TaskStatus.running
      · have h2 := hg a h1
        rw [if_pos (by simp [h1]), if_pos (by simp [h2])]
        simpa using Nat.succ_le_succ ih
      · rw [if_neg (by simp [h1])]
        by_cases h2 : a.status = TaskStatus.running
        · rw [if_pos (by simp [h2])]
          exact Nat.le_trans ih (by simp)
        · rw [if_neg (by simp [h2])]
          exact ih

lemma runningCount_updateStatus_completed_le (taskId : String)
    (ts : List AgentTask) :
    runningCount (updateStatus taskId TaskStatus.completed ts) ≤ runningCount ts :=
  runningCount_map_le _
    (fun t h => by
      by_cases hid : t.id = taskId
      · rw [if_pos hid] at h
        simp at h
      · rwa [if_neg hid] at h)
    ts

lemma runningCount_updateStatus_running_le {taskId : String}
    {ts : List AgentTask} (hN : (ts.map (fun t => t.id)).Nodup) :
    runningCount (updateStatus taskId TaskStatus.running ts) ≤ runningCount ts + 1 := by
  induction ts with
  | nil => simp [runningCount, runningTasks, updateStatus]
  | cons a l ih =>
      rw [List.map_cons, List.nodup_cons] at hN
      obtain ⟨hnot, hN'⟩ := hN
      by_cases hid : a.id = taskId
      · have htail : updateStatus taskId TaskStatus.running l = l := by
          refine updateStatus_eq_self fun t ht hteq => hnot ?_
          rw [hid, ← hteq]
          exact List.mem_map.mpr ⟨t, ht, rfl⟩
        simp only [runningCount, runningTasks, updateStatus, List.map_cons,
          if_pos hid]
        rw [show List.map (fun t =>
            if t.id = taskId then { t with status := TaskStatus.running } else t) l = l
          from htail]
        simp only [List.filter_cons]
        by_cases hrun : a.status = TaskStatus.running <;> simp [hrun]
      · have ihl := ih hN'
        simp only [runningCount, runningTasks, updateStatus, List.map_cons,
          if_neg hid, List.filter_cons] at ihl ⊢
        by_cases hrun : a.status = TaskStatus.running
        · rw [if_pos (by simp [hrun]), if_pos (by simp [hrun])]
          simpa using Nat.succ_le_succ ihl
        · rw [if_neg (by simp [hrun]), if_neg (by simp [hrun])]
          exact ihl

lemma runningCount_map_status_eq (g : AgentTask → AgentTask)
    (hg : ∀ t, (g t).status = t.status) (ts : List AgentTask) :
    runningCount (ts.map g) = runningCount ts := by
  induction ts with
  | nil => rfl
  | cons a l ih =>
      simp only [runningCount, runningTasks, List.map_cons, List.filter_cons] at ih ⊢
      rw [hg a]
      by_cases hrun : a.status = TaskStatus.running
      · rw [if_pos (by simp [hrun]), if_pos (by simp [hrun])]
        simp [ih]
      · rw [if_neg (by simp [hrun]), if_neg (by simp [hrun])]
        exact ih

lemma toggle_status_pointwise (taskId : String) (t : AgentTask) :
    ((fun t => if t.id = taskId ∧ t.status = TaskStatus.pending then
      { t with priority :=
          if t.priority = TaskPriority.high then TaskPriority.normal
          else TaskPriority.high }
      else t) t).status = t.status := by
  by_cases h : t.id = taskId ∧ t.status = TaskStatus.pending <;> simp [h]

lemma runningCount_toggle (taskId : String) (ts : List AgentTask) :
    runningCount (toggleTaskPriority taskId ts) = runningCount ts :=
  runningCount_map_status_eq _ (toggle_status_pointwise taskId) ts

lemma toggle_map_id (taskId : String) (ts : List AgentTask) :
    (toggleTaskPriority taskId ts).map (fun t => t.id) = ts.map (fun t => t.id) := by
  unfold toggleTaskPriority
  rw [List.map_map]
  refine List.map_congr_left ?_
  intro a _
  by_cases h : a.id = taskId ∧ a.status = TaskStatus.pending <;> simp [h]

lemma schedStep_preserves_nodup_and_bound {s s' : RunState}
    (hstep : SchedStep s s')
    (hN : (s.tasks.map (fun t => t.id)).Nodup)
    (hC : runningCount s.tasks ≤ MAX_CONCURRENCY) :
    (s'.tasks.map (fun t => t.id)).Nodup ∧
      runningCount s'.tasks ≤ MAX_CONCURRENCY := by
  cases hstep with
  | launch t hslot hsel =>
      refine ⟨?_, ?_⟩
      · show ((updateStatus t.id TaskStatus.running s.tasks).map
          (fun t => t.id)).Nodup
        rw [updateStatus_map_id]
        exact hN
      · show runningCount (updateStatus t.id TaskStatus.running s.tasks) ≤
          MAX_CONCURRENCY
        have := @runningCount_updateStatus_running_le t.id s.tasks hN
        omega
  | complete t r hmem hrun =>
      refine ⟨?_, ?_⟩
      · show ((updateStatus t.id TaskStatus.completed s.tasks).map
          (fun t => t.id)).Nodup
        rw [updateStatus_map_id]
        exact hN
      · show runningCount (updateStatus t.id TaskStatus.completed s.tasks) ≤
          MAX_CONCURRENCY
        exact Nat.le_trans (runningCount_updateStatus_completed_le t.id s.tasks) hC
  | toggle taskId =>
      refine ⟨?_, ?_⟩
      · show ((toggleTaskPriority taskId s.tasks).map (fun t => t.id)).Nodup
        rw [toggle_map_id]
        exact hN
      · show runningCount (toggleTaskPriority taskId s.tasks) ≤ MAX_CONCURRENCY
        rw [runningCount_toggle]
        exact hC

lemma reach_nodup_and_bound {init s : RunState} (h : Reach init s)
    (hN : (init.tasks.map (fun t => t.id)).Nodup)
    (hC : runningCount init.tasks ≤ MAX_CONCURRENCY) :
    (s.tasks.map (fun t => t.id)).Nodup ∧
      runningCount s.tasks ≤ MAX_CONCURRENCY := by
  induction h with
  | refl => exact ⟨hN, hC⟩
  | step hr hs ih => exact schedStep_preserves_nodup_and_bound hs ih.1 ih.2

/-! ### Claim theorems -/

/-- C1: in every state reachable by the scheduler from a planner-produced
graph (unique task ids, all tasks initially `pending`), at most
`MAX_CONCURRENCY = 2` tasks have status `running` at the same instant;
in particular this holds for graphs with no dependencies. -/
theorem running_count_le_max_concurrency
    (ts0 : List AgentTask) (s : RunState)
    (hids : (ts0.map (fun t => t.id)).Nodup)
    (hpend : ∀ t ∈ ts0, t.status = TaskStatus.pending)
    (hreach : Reach { tasks := ts0, results := [], dispatches := [] } s) :
    runningCount s.tasks ≤ MAX_CONCURRENCY := by
  have h0 : runningCount ts0 = 0 := by
    unfold runningCount runningTasks
    rw [List.length_eq_zero, List.filter_eq_nil_iff]
    intro a ha
    simp [hpend a ha]
  exact (reach_nodup_and_bound hreach hids (by rw [h0]; exact Nat.zero_le _)).2

def wtA : AgentTask :=
  { id := "wa", title := "Research A", agentRole := "Analyst", description := "",
    goal := "goal a", status := TaskStatus.pending, priority := TaskPriority.normal,
    dependencies := [] }

def wtB : AgentTask :=
  { id := "wb", title := "Research B", agentRole := "Historian", description := "",
    goal := "goal b", status := TaskStatus.pending, priority := TaskPriority.normal,
    dependencies := [] }

def wtC : AgentTask :=
  { id := "wc", title := "Research C", agentRole := "Critic", description := "",
    goal := "goal c", status := TaskStatus.pending, priority := TaskPriority.normal,
    dependencies := [] }

def wInit : RunState := { tasks := [wtA, wtB, wtC], results := [], dispatches := [] }

theorem running_count_le_max_concurrency_witness :
    runningCount (launchState wInit wtA).tasks ≤ MAX_CONCURRENCY :=
  running_count_le_max_concurrency [wtA, wtB, wtC] (launchState wInit wtA)
    (by decide) (by decide)
    (Reach.step Reach.refl (SchedStep.launch wInit wtA (by decide) (by decide)))

/-- C2: a scheduler step never moves a task with a non-empty dependency
set into `running` unless every one of its dependency ids named a
`completed` task at the moment of the transition: any task that is
`running` after a step either was already `running` before it, or all
of its dependencies were `completed` before it. -/
theorem running_requires_completed_dependencies
    (s s' : RunState)
    (hids : (s.tasks.map (fun t => t.id)).Nodup)
    (hstep : SchedStep s s')
    (t' : AgentTask) (hmem : t' ∈ s'.tasks)
    (hrun : t'.status = TaskStatus.running)
    (hdeps : t'.dependencies ≠ []) :
    (∃ u ∈ s.tasks, u.id = t'.id ∧ u.status = TaskStatus.running) ∨
      (∀ d ∈ t'.dependencies,
        ∃ c ∈ s.tasks, c.status = TaskStatus.completed ∧ c.id = d) := by
  cases hstep with
  | launch t hslot hsel =>
      have hmem' : t' ∈ updateStatus t.id TaskStatus.running s.tasks := hmem
      unfold updateStatus at hmem'
      obtain ⟨u, hu, hgu⟩ := List.mem_map.mp hmem'
      by_cases hid : u.id = t.id
      · have htmem := nextTask?_mem hsel
        obtain ⟨htin, htpend, htdeps⟩ := mem_executableTasks.mp htmem
        have hut : u = t := List.inj_on_of_nodup_map hids hu htin hid
        right
        have ht' : t' = { u with status := TaskStatus.running } := by
          rw [← hgu, if_pos hid]
        intro d hd
        rw [ht'] at hd
        exact htdeps d (hut ▸ hd)
      · left
        have ht' : t' = u := by rw [← hgu, if_neg hid]
        exact ⟨u, hu, by rw [ht'], by rw [← ht']; exact hrun⟩
  | complete t r htmem htrun =>
      have hmem' : t' ∈ updateStatus t.id TaskStatus.completed s.tasks := hmem
      unfold updateStatus at hmem'
      obtain ⟨u, hu, hgu⟩ := List.mem_map.mp hmem'
      by_cases hid : u.id = t.id
      · have : t'.status = TaskStatus.completed := by
          rw [← hgu, if_pos hid]
        rw [this] at hrun
        cases hrun
      · left
        have ht' : t' = u := by rw [← hgu, if_neg hid]
        exact ⟨u, hu, by rw [ht'], by rw [← ht']; exact hrun⟩
  | toggle taskId =>
      left
      have hmem' : t' ∈ toggleTaskPriority taskId s.tasks := hmem
      unfold toggleTaskPriority at hmem'
      obtain ⟨u, hu, hgu⟩ := List.mem_map.mp hmem'
      by_cases hc : u.id = taskId ∧ u.status = TaskStatus.pending
      · have ht' : t' = { u with priority :=
            if u.priority = TaskPriority.high then TaskPriority.normal
            else TaskPriority.high } := by rw [← hgu, if_pos hc]
        refine ⟨u, hu, by rw [ht'], ?_⟩
        rw [ht'] at hrun
        exact hrun
      · have ht' : t' = u := by rw [← hgu, if_neg hc]
        exact ⟨u, hu, by rw [ht'], by rw [← ht']; exact hrun⟩

def w2res : SearchResult := { text := "dependency findings", sources := [] }

def w2done : AgentTask :=
  { id := "dep", title := "Base research", agentRole := "Collector",
    description := "", goal := "collect", status := TaskStatus.completed,
    priority := TaskPriority.normal, dependencies := [] }

def w2next : AgentTask :=
  { id := "succ", title := "Follow-up", agentRole := "Writer",
    description := "", goal := "write", status := TaskStatus.pending,
    priority := TaskPriority.normal, dependencies := ["dep"] }

def w2state : RunState :=
  { tasks := [w2done, w2next], results := [("dep", w2res)], dispatches := [] }

theorem running_requires_completed_dependencies_witness :
    (∃ u ∈ w2state.tasks,
        u.id = (AgentTask.mk "succ" "Follow-up" "Writer" "" "write"
          TaskStatus.running TaskPriority.normal ["dep"]).id ∧
        u.status = TaskStatus.running) ∨
      (∀ d ∈ (AgentTask.mk "succ" "Follow-up" "Writer" "" "write"
          TaskStatus.running TaskPriority.normal ["dep"]).dependencies,
        ∃ c ∈ w2state.tasks, c.status = TaskStatus.completed ∧ c.id = d) :=
  running_requires_completed_dependencies w2state (launchState w2state w2next)
    (by decide)
    (SchedStep.launch w2state w2next (by decide) (by decide))
    (AgentTask.mk "succ" "Follow-up" "Writer" "" "write"
      TaskStatus.running TaskPriority.normal ["dep"])
    (by decide) (by decide) (by decide)

def cycleA : AgentTask :=
  { id := "a", title := "Task A", agentRole := "Agent A", description := "",
    goal := "goal a", status := TaskStatus.pending, priority := TaskPriority.normal,
    dependencies := ["b"] }

def cycleB : AgentTask :=
  { id := "b", title := "Task B", agentRole := "Agent B", description := "",
    goal := "goal b", status := TaskStatus.pending, priority := TaskPriority.normal,
    dependencies := ["a"] }

/-- The two-task dependency cycle of the claim: `a` depends on `b` and
`b` depends on `a`, both `pending`. -/
def cycleTasks : List AgentTask := [cycleA, cycleB]

/-- C3, behavior of the code at the deadlock input: on the two-task
cycle the loop takes the deadlock branch (`console.warn` + `break`,
lines 319-322), which performs no status update, so both tasks keep
status `pending` (none becomes `failed`; the code assigns `failed`
nowhere), no task is running and none is executable — so no further
scheduler step can ever change the state — while the wait-loop
predicate of `handleStartExecution` (line 341) still evaluates to
`true`, meaning the 200 ms polling loop never exits and the run never
reaches synthesis. -/
theorem cycle_graph_deadlock_behavior :
    loopIteration cycleTasks = LoopAction.deadlockBreak ∧
    pendingTasks cycleTasks = cycleTasks ∧
    executableTasks cycleTasks = [] ∧
    runningTasks cycleTasks = [] ∧
    waitCond cycleTasks = true := by decide

/-- C10: on a graph whose tasks all have terminal status (`completed`
or `failed`) — in particular on the empty graph — the first iteration
of the loop body takes the exit branch (line 285), which dispatches no
executor call and updates no status; nothing is pending, running or
executable, and the wait-loop predicate is already false, so
`handleStartExecution` proceeds directly to synthesis. -/
theorem terminal_graph_first_iteration_exit
    (ts : List AgentTask)
    (h : ∀ t ∈ ts, t.status = TaskStatus.completed ∨ t.status = TaskStatus.failed) :
    loopIteration ts = LoopAction.exitDone ∧
    waitCond ts = false ∧
    pendingTasks ts = [] ∧
    runningTasks ts = [] ∧
    executableTasks ts = [] := by
  have hp : pendingTasks ts = [] := by
    unfold pendingTasks
    rw [List.filter_eq_nil_iff]
    intro a ha
    rcases h a ha with h1 | h1 <;> simp [h1]
  have hr : runningTasks ts = [] := by
    unfold runningTasks
    rw [List.filter_eq_nil_iff]
    intro a ha
    rcases h a ha with h1 | h1 <;> simp [h1]
  have he : executableTasks ts = [] := by
    unfold executableTasks
    rw [hp]
    rfl
  have hw : waitCond ts = false := by
    unfold waitCond
    rw [Bool.eq_false_iff]
    intro hany
    rw [List.any_eq_true] at hany
    obtain ⟨a, ha, hcond⟩ := hany
    rcases h a ha with h1 | h1 <;> simp [h1] at hcond
  refine ⟨?_, hw, hp, hr, he⟩
  unfold loopIteration
  rw [hp, hr]
  simp

def w10done : AgentTask :=
  { id := "done1", title := "Done", agentRole := "Analyst", description := "",
    goal := "done goal", status := TaskStatus.completed,
    priority := TaskPriority.normal, dependencies := [] }

def w10failed : AgentTask :=
  { id := "fail1", title := "Unscheduled", agentRole := "Historian",
    description := "", goal := "never ran", status := TaskStatus.failed,
    priority := TaskPriority.normal, dependencies := ["done1"] }

theorem terminal_graph_first_iteration_exit_witness :
    loopIteration [w10done, w10failed] = LoopAction.exitDone ∧
    waitCond [w10done, w10failed] = false ∧
    pendingTasks [w10done, w10failed] = [] ∧
    runningTasks [w10done, w10failed] = [] ∧
    executableTasks [w10done, w10failed] = [] :=
  terminal_graph_first_iteration_exit [w10done, w10failed] (by decide)

def w5normal : AgentTask :=
  { id := "na", title := "Normal first", agentRole := "Analyst",
    description := "", goal := "goal n", status := TaskStatus.pending,
    priority := TaskPriority.normal, dependencies := [] }

def w5high : AgentTask :=
  { id := "hb", title := "High second", agentRole := "Historian",
    description := "", goal := "goal h", status := TaskStatus.pending,
    priority := TaskPriority.high, dependencies := [] }

/-- C5: the task selected by
`executableTasks.find(t => t.priority === 'high') || executableTasks[0]`
is always a member of the eligible set; it has priority `high` whenever
any eligible task does, and otherwise it is the first eligible task in
the graph's stable iteration order; in particular, with eligible tasks
`[w5normal, w5high]` (both dependency-free and pending, the second with
priority `high`) the high-priority one is selected first. -/
theorem next_task_selection_priority (ts : List AgentTask) :
    (∀ t, nextTask? (executableTasks ts) = some t → t ∈ executableTasks ts) ∧
    ((∃ t ∈ executableTasks ts, t.priority = TaskPriority.high) →
      ∃ t, nextTask? (executableTasks ts) = some t ∧
        t.priority = TaskPriority.high) ∧
    ((∀ t ∈ executableTasks ts, t.priority ≠ TaskPriority.high) →
      nextTask? (executableTasks ts) = (executableTasks ts).head?) ∧
    nextTask? (executableTasks [w5normal, w5high]) = some w5high := by
  refine ⟨fun t h => nextTask?_mem h, ?_, ?_, by decide⟩
  · intro ⟨t, htmem, hthigh⟩
    unfold nextTask?
    cases hf : (executableTasks ts).find?
        (fun t => decide (t.priority = TaskPriority.high)) with
    | some u =>
        refine ⟨u, rfl, ?_⟩
        have := List.find?_some hf
        rwa [decide_eq_true_eq] at this
    | none =>
        exfalso
        have : ((executableTasks ts).find?
            (fun t => decide (t.priority = TaskPriority.high))).isSome :=
          List.find?_isSome.mpr ⟨t, htmem, by simp [hthigh]⟩
        rw [hf] at this
        cases this
  · intro hnone
    unfold nextTask?
    cases hf : (executableTasks ts).find?
        (fun t => decide (t.priority = TaskPriority.high)) with
    | some u =>
        exfalso
        have hu := List.find?_some hf
        rw [decide_eq_true_eq] at hu
        exact hnone u (List.mem_of_find?_eq_some hf) hu
    | none => rfl

theorem next_task_selection_priority_witness :
    nextTask? (executableTasks [w5normal, w5high]) = some w5high :=
  (next_task_selection_priority [w5normal, w5high]).2.2.2

/-- C7: the readiness evaluation is pure and idempotent — it leaves the
task list it reads unchanged, re-running it on the unchanged graph
yields the same eligible set, and membership in the eligible set is
exactly "`pending` with every dependency id naming a `completed` task
of the same graph". -/
theorem readiness_pure_idempotent (ts : List AgentTask) :
    (readinessEval ts).2 = ts ∧
    (readinessEval ((readinessEval ts).2)).1 = (readinessEval ts).1 ∧
    (∀ t, t ∈ (readinessEval ts).1 ↔
      t ∈ ts ∧ t.status = TaskStatus.pending ∧
        ∀ d ∈ t.dependencies,
          ∃ c ∈ ts, c.status = TaskStatus.completed ∧ c.id = d) :=
  ⟨rfl, rfl, fun _ => mem_executableTasks⟩

theorem readiness_pure_idempotent_witness :
    (readinessEval cycleTasks).2 = cycleTasks ∧
    (readinessEval ((readinessEval cycleTasks).2)).1 =
      (readinessEval cycleTasks).1 :=
  ⟨(readiness_pure_idempotent cycleTasks).1,
    (readiness_pure_idempotent cycleTasks).2.1⟩

/-- C8: `toggleTaskPriority x` changes at most the priority field of the
task with id `x`, and only while that task is `pending`: if no task
with id `x` is `pending` the list is returned unchanged; positions,
ids, descriptive fields, statuses and dependency lists are always
preserved, a matched pending task gets exactly its priority flipped,
and every unmatched or non-pending entry is returned identically. -/
theorem toggle_priority_frame (ts : List AgentTask) (x : String) :
    ((∀ t ∈ ts, t.id = x → t.status ≠ TaskStatus.pending) →
      toggleTaskPriority x ts = ts) ∧
    (toggleTaskPriority x ts).length = ts.length ∧
    (∀ (i : Nat) (h1 : i < ts.length)
        (h2 : i < (toggleTaskPriority x ts).length),
      ((toggleTaskPriority x ts).get ⟨i, h2⟩).id = (ts.get ⟨i, h1⟩).id ∧
      ((toggleTaskPriority x ts).get ⟨i, h2⟩).title = (ts.get ⟨i, h1⟩).title ∧
      ((toggleTaskPriority x ts).get ⟨i, h2⟩).agentRole =
        (ts.get ⟨i, h1⟩).agentRole ∧
      ((toggleTaskPriority x ts).get ⟨i, h2⟩).description =
        (ts.get ⟨i, h1⟩).description ∧
      ((toggleTaskPriority x ts).get ⟨i, h2⟩).goal = (ts.get ⟨i, h1⟩).goal ∧
      ((toggleTaskPriority x ts).get ⟨i, h2⟩).status = (ts.get ⟨i, h1⟩).status ∧
      ((toggleTaskPriority x ts).get ⟨i, h2⟩).dependencies =
        (ts.get ⟨i, h1⟩).dependencies ∧
      (¬((ts.get ⟨i, h1⟩).id = x ∧ (ts.get ⟨i, h1⟩).status = TaskStatus.pending) →
        (toggleTaskPriority x ts).get ⟨i, h2⟩ = ts.get ⟨i, h1⟩) ∧
      (((ts.get ⟨i, h1⟩).id = x ∧ (ts.get ⟨i, h1⟩).status = TaskStatus.pending) →
        ((toggleTaskPriority x ts).get ⟨i, h2⟩).priority =
          (if (ts.get ⟨i, h1⟩).priority = TaskPriority.high then
            TaskPriority.normal else TaskPriority.high))) := by
  refine ⟨?_, ?_, ?_⟩
  · intro h
    unfold toggleTaskPriority
    have : ts.map (fun t =>
        if t.id = x ∧ t.status = TaskStatus.pending then
          { t with priority :=
              if t.priority = TaskPriority.high then TaskPriority.normal
              else TaskPriority.high }
        else t) = ts.map id := by
      refine List.map_congr_left fun a ha => ?_
      have : ¬(a.id = x ∧ a.status = TaskStatus.pending) := by
        rintro ⟨hid, hpend⟩
        exact h a ha hid hpend
      simp [this]
    rw [this, List.map_id]
  · unfold toggleTaskPriority
    exact List.length_map ts _
  · intro i h1 h2
    simp only [List.get_eq_getElem]
    have hg : (toggleTaskPriority x ts)[i] =
        (fun t =>
          if t.id = x ∧ t.status = TaskStatus.pending then
            { t with priority :=
                if t.priority = TaskPriority.high then TaskPriority.normal
                else TaskPriority.high }
          else t) ts[i] := by
      unfold toggleTaskPriority
      simp [List.getElem_map]
    rw [hg]
    by_cases hc : ts[i].id = x ∧ ts[i].status = TaskStatus.pending
    · simp [hc]
    · simp [hc]

def w8locked : AgentTask :=
  { id := "locked", title := "Already running", agentRole := "Analyst",
    description := "", goal := "goal", status := TaskStatus.running,
    priority := TaskPriority.normal, dependencies := [] }

theorem toggle_priority_frame_witness :
    toggleTaskPriority "locked" [w8locked, w10done] = [w8locked, w10done] :=
  (toggle_priority_frame [w8locked, w10done] "locked").1 (by decide)

/-- C9: deleting a task in the review phase removes it from the list
and strips its id from every remaining task's dependency list, so no
remaining task depends on the deleted id. -/
theorem delete_task_no_dangling_dependency (ts : List AgentTask) (x : String) :
    ∀ t ∈ handleDeleteTask x ts, ¬ t.id = x ∧ x ∉ t.dependencies := by
  intro t hmem
  unfold handleDeleteTask at hmem
  obtain ⟨u, hu, hgu⟩ := List.mem_map.mp hmem
  obtain ⟨huin, hupred⟩ := List.mem_filter.mp hu
  constructor
  · rw [← hgu]
    show ¬ u.id = x
    simpa using hupred
  · rw [← hgu]
    show x ∉ u.dependencies.filter (fun d => !decide (d = x))
    intro hx
    have := (List.mem_filter.mp hx).2
    simp at this

def w9t1 : AgentTask :=
  { id := "t1", title := "Kept task", agentRole := "Analyst", description := "",
    goal := "g1", status := TaskStatus.pending, priority := TaskPriority.normal,
    dependencies := ["t2", "t3"] }

def w9t2 : AgentTask :=
  { id := "t2", title := "Deleted task", agentRole := "Historian",
    description := "", goal := "g2", status := TaskStatus.pending,
    priority := TaskPriority.normal, dependencies := [] }

theorem delete_task_no_dangling_dependency_witness :
    ¬ w9t1.id = "t2" ∧ "t2" ∉ w9t1.dependencies.filter (fun d => !decide (d = "t2")) := by
  have h := delete_task_no_dangling_dependency [w9t1, w9t2] "t2"
    { w9t1 with dependencies := w9t1.dependencies.filter (fun d => !decide (d = "t2")) }
    (by decide)
  exact ⟨h.1, fun hx => h.2 hx⟩

/-- C6: the single-task executor is a total function of the generative
outcome — it always resolves, never rejects toward the scheduler.  On
internal failure (`GenAttempt.error`, the `catch` branch) it resolves
with the placeholder result: explanatory text and an empty source
list.  The scheduler's completion handler then treats that value
exactly like any successful result: for every possible outcome it
marks the task `completed` (never `failed`) and appends the result to
the result map unchanged. -/
theorem executor_failure_resolves_completed
    (task : AgentTask) (sharedContext : String) (s : RunState) :
    executeResearchTask GenAttempt.error task sharedContext =
      failurePlaceholder ∧
    (executeResearchTask GenAttempt.error task sharedContext).sources = [] ∧
    (executeResearchTask GenAttempt.error task sharedContext).text =
      "Failed to retrieve information for this task." ∧
    (∀ attempt : GenAttempt,
      (∀ t' ∈ (completeState s task.id
          (executeResearchTask attempt task sharedContext)).tasks,
        t'.id = task.id → t'.status = TaskStatus.completed) ∧
      (completeState s task.id
          (executeResearchTask attempt task sharedContext)).results =
        s.results ++ [(task.id, executeResearchTask attempt task sharedContext)]) := by
  refine ⟨rfl, rfl, rfl, ?_⟩
  intro attempt
  constructor
  · intro t' hmem hid
    exact status_of_mem_updateStatus hmem hid
  · rfl

theorem executor_failure_resolves_completed_witness :
    executeResearchTask GenAttempt.error w2next "" = failurePlaceholder :=
  (executor_failure_resolves_completed w2next "" w2state).1

def chainA : AgentTask :=
  { id := "a1", title := "Alpha task", agentRole := "Alpha", description := "",
    goal := "alpha goal", status := TaskStatus.pending,
    priority := TaskPriority.normal, dependencies := [] }

def chainB : AgentTask :=
  { id := "b1", title := "Beta task", agentRole := "Beta", description := "",
    goal := "beta goal", status := TaskStatus.pending,
    priority := TaskPriority.normal, dependencies := [] }

def chainC : AgentTask :=
  { id := "c1", title := "Gamma task", agentRole := "Gamma", description := "",
    goal := "gamma goal", status := TaskStatus.pending,
    priority := TaskPriority.normal, dependencies := ["a1", "b1"] }

def resA : SearchResult := { text := "alpha findings", sources := [] }

def resB : SearchResult := { text := "beta findings", sources := [] }

/-- A concrete run of three tasks where the third depends on the first
two and the second task in list order finishes before the first.  This
is the schedule the single-threaded program itself takes when "b1"'s
executor promise resolves before "a1"'s: the initial loop launches "a1"
then "b1" and returns on the saturated ceiling; the completion callback
of "b1" re-enters `processQueue`, which finds nothing executable ("c1"
still waits on "a1") and returns without launching; the completion
callback of "a1" re-enters `processQueue`, which launches "c1".  The
`loopIteration` conjuncts of the counterexample below certify each of
those forced re-entry behaviors at the corresponding states. -/
def trace0 : RunState := { tasks := [chainA, chainB, chainC], results := [], dispatches := [] }

def trace1 : RunState := launchState trace0 chainA

def trace2 : RunState := launchState trace1 chainB

def trace3 : RunState := completeState trace2 "b1" resB

def trace4 : RunState := completeState trace3 "a1" resA

def trace5 : RunState := launchState trace4 chainC

lemma trace_step1 : SchedStep trace0 trace1 :=
  SchedStep.launch trace0 chainA (by decide) (by decide)

lemma trace_step2 : SchedStep trace1 trace2 :=
  SchedStep.launch trace1 chainB (by decide) (by decide)

lemma trace_step3 : SchedStep trace2 trace3 :=
  SchedStep.complete trace2 { chainB with status := TaskStatus.running } resB
    (by decide) (by decide)

lemma trace_step4 : SchedStep trace3 trace4 :=
  SchedStep.complete trace3 { chainA with status := TaskStatus.running } resA
    (by decide) (by decide)

lemma trace_step5 : SchedStep trace4 trace5 :=
  SchedStep.launch trace4 chainC (by decide) (by decide)

lemma trace_reach : Reach trace0 trace5 :=
  Reach.step
    (Reach.step
      (Reach.step (Reach.step (Reach.step Reach.refl trace_step1) trace_step2)
        trace_step3)
      trace_step4)
    trace_step5

set_option maxRecDepth 8192 in
/-- C4, counterexample to the claim as stated: in the run
`trace0 → … → trace5` the task "c1" depends on both "a1" and "b1", and
"b1" completes before "a1".  This schedule is reachable in the program,
where each completion callback synchronously re-enters `processQueue`:
after the two launches the loop returns on the saturated ceiling
(`loopIteration trace2.tasks = waitSlot`), the re-entry triggered by
"b1"'s completion cannot launch anything because "c1" still waits on the
running "a1" (`loopIteration trace3.tasks = waitBlocked`), and the
re-entry triggered by "a1"'s completion launches exactly "c1"
(`loopIteration trace4.tasks = launchTask chainC`) — the trace's next
and final step.  The context dispatched for "c1" is built by mapping
over the completed-status filter of the task list, so its blocks appear
in the task list's order ("a1" then "b1"), not in the order in which the
tasks completed ("b1" then "a1"): it differs from the completion-order
concatenation the claim describes. -/
theorem dispatch_context_completion_order_counterexample :
    Reach trace0 trace5 ∧
    loopIteration trace2.tasks = LoopAction.waitSlot ∧
    loopIteration trace3.tasks = LoopAction.waitBlocked ∧
    loopIteration trace4.tasks = LoopAction.launchTask chainC ∧
    ("c1", contextString trace4.tasks trace4.results) ∈ trace5.dispatches ∧
    contextString trace4.tasks trace4.results ≠
      specContextCompletionOrder trace4.tasks trace4.results :=
  ⟨trace_reach, by decide, by decide, by decide, by decide, by decide⟩

/-- C4, amended: every executor dispatch carries the context equal to
the concatenation, over exactly the set of tasks `completed` at dispatch
time, of a block containing that task's agent role, title, goal and
result text, with the blocks ordered by the graph's stable iteration
order (the task list order), not by completion order. -/
theorem dispatch_context_stable_order (s s' : RunState)
    (hstep : SchedStep s s') :
    ∀ d ∈ s'.dispatches,
      d ∈ s.dispatches ∨ d.2 = specContextStableOrder s.tasks s.results := by
  cases hstep with
  | launch t hslot hsel =>
      intro d hd
      rcases List.mem_append.mp hd with h | h
      · exact Or.inl h
      · right
        rw [List.mem_singleton] at h
        rw [h]
        rfl
  | complete t r hmem hrun =>
      intro d hd
      exact Or.inl hd
  | toggle taskId =>
      intro d hd
      exact Or.inl hd

set_option maxRecDepth 8192 in
theorem dispatch_context_stable_order_witness :
    ("c1", contextString trace4.tasks trace4.results) ∈ trace4.dispatches ∨
      ("c1", contextString trace4.tasks trace4.results).2 =
        specContextStableOrder trace4.tasks trace4.results :=
  dispatch_context_stable_order trace4 trace5 trace_step5
    ("c1", contextString trace4.tasks trace4.results) (by decide)
